import Mathlib

/-!
Verification of the tiny-browser CDP client core (`src/client.ts`,
`createClient`).  The client is shallowly embedded: JSON frames are a
`Json` inductive with JavaScript truthiness, the mutable closure state of
`createClient` (`messageId`, `pendingCommands`, `eventListeners`, the
socket's ready state and the connection promise) is a `ClientState`
record, and each handler / method of the client is a pure function from
state to state plus a list of observable outputs (promise settlements,
listener invocations, frames written to the socket).
-/

namespace TinyBrowser

/-- A JSON value as produced by `JSON.parse` on an incoming text frame.
Numbers are restricted to integers, which covers every field the client
inspects (correlation ids). -/
inductive Json where
  | null
  | bool (b : Bool)
  | num (n : Int)
  | str (s : String)
  | arr (elems : List Json)
  | obj (fields : List (String × Json))

/-- JavaScript truthiness of a JSON value: `null`, `false`, `0` and `""`
are falsy; every object and array is truthy.  The source tests
`if (data.id)`, `if (data.error)`, `if (data.method)` and
`sessionId ? ... : ...`, all of which are truthiness tests. -/
def Json.truthy : Json → Bool
  | .null => false
  | .bool b => b
  | .num n => n != 0
  | .str s => s != ""
  | .arr _ => true
  | .obj _ => true

/-- Field access `data.key` on a parsed frame.  `JSON.parse` keeps the
last occurrence of a duplicated key, hence the reversed search; a missing
field (JavaScript `undefined`) is `none`. -/
def Json.getField : Json → String → Option Json
  | .obj fields, key => (fields.reverse.find? (fun p => p.1 == key)).map (·.2)
  | _, _ => none

/-- `WebSocket.readyState` constants. -/
inductive ReadyState where
  | CONNECTING
  | OPEN
  | CLOSING
  | CLOSED
deriving DecidableEq

/-- The settlement state of `connectionPromise`: `none` while pending,
`some true` once resolved, `some false` once rejected.  A promise settles
at most once, so a settled promise ignores later settlement attempts. -/
def settleResolve : Option Bool → Option Bool
  | none => some true
  | some b => some b

/-- Rejecting an already settled promise is a no-op. -/
def settleReject : Option Bool → Option Bool
  | none => some false
  | some b => some b

/-- The mutable state captured by the `createClient` closure:
`ws.readyState`, the `messageId` counter, the key set of the
`pendingCommands` map (the resolve/reject closures are represented by the
settlement outputs of `handleMessage`), the `eventListeners` map of
insertion-ordered sets (callbacks are identified by reference, modelled
as `Nat`), and the settlement state of `connectionPromise`. -/
structure ClientState where
  readyState : ReadyState
  messageId : Int
  pending : List Int
  listeners : List (String × List Nat)
  connSettled : Option Bool

/-- State right after `new WebSocket(url)`: counter 0, no pending
commands, no listeners, connection promise pending. -/
def initState : ClientState :=
  { readyState := .CONNECTING, messageId := 0, pending := [],
    listeners := [], connSettled := none }

/-- Observable outputs of one client transition: a pending command's
promise resolved / rejected, an event callback invoked with a parameter
payload, a serialized frame passed to `ws.send`, a `sendCommand` call
returning the rejected `Error("WebSocket is not open")` promise, or
`ws.close()` being called. -/
inductive Output where
  | resolved (id : Int) (result : Option Json)
  | rejected (id : Int) (error : Json)
  | invoked (callback : Nat) (params : Option Json)
  | sentFrame (id : Int) (frame : Json)
  | sendFailed
  | wsCloseCalled

/-- `Set.add` on the insertion-ordered callback set: a no-op when the
identical callback reference is already present. -/
def addToSet (cs : List Nat) (c : Nat) : List Nat :=
  if c ∈ cs then cs else cs ++ [c]

/-- `client.on`: create the per-method set on first use, then add the
callback to it (source lines `if (!eventListeners.has(event)) ...;
eventListeners.get(event)!.add(callback)`). -/
def addListener : List (String × List Nat) → String → Nat → List (String × List Nat)
  | [], event, c => [(event, [c])]
  | (k, cs) :: rest, event, c =>
    if k == event then (k, addToSet cs c) :: rest
    else (k, cs) :: addListener rest event c

/-- `eventListeners.get(m)` as a list in insertion order; `[]` when the
method has no entry. -/
def listenersFor (ls : List (String × List Nat)) (m : String) : List Nat :=
  match ls.find? (fun p => p.1 == m) with
  | some p => p.2
  | none => []

/-- The guard `data.id && pendingCommands.has(data.id)` of `ws.onmessage`:
the id field must be present, truthy, and (since the map's keys are the
numbers produced by `++messageId`) a number that is a key of
`pendingCommands`. -/
def pendingMatch (st : ClientState) (data : Json) : Option Int :=
  match data.getField "id" with
  | some v =>
    if v.truthy then
      match v with
      | .num n => if n ∈ st.pending then some n else none
      | _ => none
    else none
  | none => none

/-- The body `if (data.error) { reject(data.error) } else
{ resolve(data.result) }` of the matched-id branch. -/
def settleEffect (n : Int) (data : Json) : Output :=
  match data.getField "error" with
  | some e => if e.truthy then .rejected n e else .resolved n (data.getField "result")
  | none => .resolved n (data.getField "result")

/-- The event branch `if (data.method) { eventListeners.get(data.method)
?.forEach((cb) => cb(data.params)) }`: each currently registered listener
for the method, in insertion order, is invoked with `data.params`.  A
falsy or non-string method finds no listener entry. -/
def eventDispatchList (st : ClientState) (data : Json) : List Output :=
  match data.getField "method" with
  | some (.str m) =>
    if m == "" then []
    else (listenersFor st.listeners m).map (fun c => Output.invoked c (data.getField "params"))
  | _ => []

/-- The full `ws.onmessage` handler: a frame whose id matches a pending
command deletes that entry and settles it, then returns; every other
frame falls through to event dispatch. -/
def handleMessage (st : ClientState) (data : Json) : ClientState × List Output :=
  match pendingMatch st data with
  | some n => ({ st with pending := st.pending.erase n }, [settleEffect n data])
  | none => (st, eventDispatchList st data)

/-- Outcome of a `sendCommand` call: the synchronously rejected promise
when the socket is not open, or the allocated id together with the frame
handed to `ws.send`. -/
inductive SendOutcome where
  | notOpen
  | sent (id : Int) (frame : Json)

/-- Truthiness of the optional `sessionId` argument
(`const message = sessionId ? {...} : {...}`): an absent argument and the
empty string are both falsy. -/
def sessionTruthy : Option String → Bool
  | none => false
  | some s => s != ""

/-- `client.sendCommand(method, params = {}, sessionId?)`: reject
immediately when `ws.readyState !== WebSocket.OPEN`; otherwise allocate
`++messageId`, register the pending entry, build the frame with
`sessionId` included only when truthy, and send it. -/
def sendCommand (st : ClientState) (method : String) (params : Option Json)
    (sessionId : Option String) : ClientState × SendOutcome :=
  if st.readyState ≠ .OPEN then (st, .notOpen)
  else
    let id := st.messageId + 1
    let p := params.getD (Json.obj [])
    let frame :=
      if sessionTruthy sessionId then
        Json.obj [("id", .num id), ("method", .str method), ("params", p),
                  ("sessionId", .str (sessionId.getD ""))]
      else
        Json.obj [("id", .num id), ("method", .str method), ("params", p)]
    ({ st with messageId := id, pending := st.pending ++ [id] }, .sent id frame)

/-- `client.on(event, callback)` (named `onEvent` because `on` is a
reserved word in Lean). -/
def onEvent (st : ClientState) (event : String) (callback : Nat) : ClientState :=
  { st with listeners := addListener st.listeners event callback }

/-- One interaction with the client: socket lifecycle signals
(`ws.onopen`, `ws.onclose`), an incoming frame (`ws.onmessage`), and the
three public methods. -/
inductive Action where
  | sockOpen
  | sockClose
  | sockMessage (data : Json)
  | send (method : String) (params : Option Json) (sessionId : Option String)
  | register (event : String) (callback : Nat)
  | close

/-- Small-step semantics of the client.  `sockOpen` / `sockClose` are the
socket moving to OPEN / CLOSED and firing the handler that settles
`connectionPromise`; `close` is `client.close()`, a no-op unless the
socket is open, otherwise `ws.close()` (which puts the socket in
CLOSING). -/
def step (st : ClientState) : Action → ClientState × List Output
  | .sockOpen =>
    ({ st with readyState := .OPEN, connSettled := settleResolve st.connSettled }, [])
  | .sockClose =>
    ({ st with readyState := .CLOSED, connSettled := settleReject st.connSettled }, [])
  | .sockMessage data => handleMessage st data
  | .send m p s =>
    match sendCommand st m p s with
    | (st', .notOpen) => (st', [.sendFailed])
    | (st', .sent id frame) => (st', [.sentFrame id frame])
  | .register e c => (onEvent st e c, [])
  | .close =>
    if st.readyState ≠ .OPEN then (st, [])
    else ({ st with readyState := .CLOSING }, [.wsCloseCalled])

/-- Run a list of interactions, accumulating the outputs. -/
def run (st : ClientState) : List Action → ClientState × List Output
  | [] => (st, [])
  | a :: as =>
    let s1 := step st a
    let s2 := run s1.1 as
    (s2.1, s1.2 ++ s2.2)

/-- A client state with the socket open and nothing in flight, as reached
by `createClient` once `connectionPromise` has resolved. -/
def openState : ClientState :=
  { readyState := .OPEN, messageId := 0, pending := [], listeners := [],
    connSettled := some true }

/-! ### Basic routing lemmas -/

theorem pendingMatch_of_mem {st : ClientState} {data : Json} {n : Int}
    (hid : data.getField "id" = some (Json.num n)) (hpos : n ≠ 0)
    (hmem : n ∈ st.pending) : pendingMatch st data = some n := by
  simp [pendingMatch, hid, Json.truthy, hpos, hmem]

theorem pendingMatch_mem {st : ClientState} {data : Json} {n : Int}
    (h : pendingMatch st data = some n) : n ∈ st.pending := by
  unfold pendingMatch at h
  split at h <;> repeat' split at h
  all_goals simp_all

theorem pendingMatch_eq_none {st : ClientState} {data : Json}
    (h : ¬ ∃ n, data.getField "id" = some (Json.num n) ∧ n ∈ st.pending) :
    pendingMatch st data = none := by
  push_neg at h
  unfold pendingMatch
  split <;> repeat' split
  all_goals simp_all

theorem settleEffect_not_invoked (n : Int) (data : Json) (c : Nat) (p : Option Json) :
    settleEffect n data ≠ Output.invoked c p := by
  unfold settleEffect
  split <;> repeat' split
  all_goals simp

/-! ### C3: sending while the socket is not open -/

/-- C3: a `sendCommand` call made while the socket is not in the OPEN
state fails immediately with the rejected "WebSocket is not open"
promise: the state is returned unchanged (the id counter is not bumped
and the pending table is untouched) and no frame is written to the
socket. -/
theorem sendCommand_not_open (st : ClientState) (m : String) (p : Option Json)
    (s : Option String) (h : st.readyState ≠ ReadyState.OPEN) :
    sendCommand st m p s = (st, SendOutcome.notOpen) ∧
    step st (Action.send m p s) = (st, [Output.sendFailed]) := by
  constructor
  · simp [sendCommand, h]
  · simp [step, sendCommand, h]

/-- Witness for C3 at a concrete state: the freshly constructed client
(socket still CONNECTING). -/
theorem sendCommand_not_open_witness :
    sendCommand initState "Browser.getVersion" none none = (initState, SendOutcome.notOpen) ∧
    step initState (Action.send "Browser.getVersion" none none) =
      (initState, [Output.sendFailed]) :=
  sendCommand_not_open initState "Browser.getVersion" none none (by decide)

/-! ### C10: the params default -/

/-- C10: omitting the `params` argument substitutes the empty object:
the call is identical to passing `{}` explicitly, and the outgoing frame
carries `"params": {}`. -/
theorem sendCommand_params_default (st : ClientState) (m : String) (s : Option String) :
    sendCommand st m none s = sendCommand st m (some (Json.obj [])) s ∧
    (st.readyState = ReadyState.OPEN →
      ∃ frame, (sendCommand st m none s).2 = SendOutcome.sent (st.messageId + 1) frame ∧
        frame.getField "params" = some (Json.obj [])) := by
  refine ⟨rfl, fun h => ?_⟩
  cases hs : sessionTruthy s <;>
    simp [sendCommand, h, hs, Json.getField]

/-- Witness for C10 at the open state. -/
theorem sendCommand_params_default_witness :
    sendCommand openState "Page.enable" none none =
      sendCommand openState "Page.enable" (some (Json.obj [])) none ∧
    ∃ frame, (sendCommand openState "Page.enable" none none).2 =
        SendOutcome.sent (openState.messageId + 1) frame ∧
      frame.getField "params" = some (Json.obj []) :=
  ⟨(sendCommand_params_default openState "Page.enable" none).1,
   (sendCommand_params_default openState "Page.enable" none).2 rfl⟩

/-! ### C6: presence of the sessionId field -/

/-- Counterexample to C6 as stated: the caller provides the sessionId
argument `""`, yet (because the source tests `sessionId ? ... : ...` for
truthiness and the empty string is falsy) the serialized frame omits the
`sessionId` field entirely. -/
theorem sendCommand_empty_sessionId_omitted :
    (sendCommand openState "Target.getTargets" none (some "")).2 =
      SendOutcome.sent 1 (Json.obj [("id", Json.num 1),
        ("method", Json.str "Target.getTargets"), ("params", Json.obj [])]) ∧
    Json.getField (Json.obj [("id", Json.num 1), ("method", Json.str "Target.getTargets"),
        ("params", Json.obj [])]) "sessionId" = none :=
  ⟨rfl, rfl⟩

/-- C6 (amended): the outgoing frame contains the `sessionId` field iff
the caller provided a non-empty sessionId, in which case it holds exactly
the provided string; when the argument is omitted or empty the field is
absent entirely (never null or an empty value). -/
theorem sendCommand_sessionId_iff_provided (st : ClientState) (m : String)
    (p : Option Json) (s : Option String) (h : st.readyState = ReadyState.OPEN) :
    ∃ frame, (sendCommand st m p s).2 = SendOutcome.sent (st.messageId + 1) frame ∧
      frame.getField "sessionId" =
        (match s with
         | some sid => if sid = "" then none else some (Json.str sid)
         | none => none) := by
  match s with
  | none => simp [sendCommand, h, sessionTruthy, Json.getField]
  | some sid =>
    by_cases hsid : sid = "" <;>
      simp [sendCommand, h, sessionTruthy, hsid, Json.getField]

/-- Witness for the amended C6 with a concrete non-empty sessionId. -/
theorem sendCommand_sessionId_iff_provided_witness :
    ∃ frame, (sendCommand openState "Page.navigate" none (some "sess-1")).2 =
        SendOutcome.sent (openState.messageId + 1) frame ∧
      frame.getField "sessionId" =
        (match some "sess-1" with
         | some sid => if sid = "" then none else some (Json.str sid)
         | none => none) :=
  sendCommand_sessionId_iff_provided openState "Page.navigate" none (some "sess-1") rfl

/-! ### C5: error takes precedence over result -/

/-- C5: when a frame's id matches a pending command, an `error` object
on the frame fails that command with exactly that payload, regardless of
any `result` field also present; with no `error` field the command is
resolved with the frame's `result` payload. -/
theorem response_error_precedence (st : ClientState) (data : Json) (n : Int)
    (hid : data.getField "id" = some (Json.num n)) (hpos : 0 < n)
    (hmem : n ∈ st.pending) :
    (∀ e, data.getField "error" = some (Json.obj e) →
      (handleMessage st data).2 = [Output.rejected n (Json.obj e)]) ∧
    (data.getField "error" = none →
      (handleMessage st data).2 = [Output.resolved n (data.getField "result")]) := by
  have hpm : pendingMatch st data = some n :=
    pendingMatch_of_mem hid (by omega) hmem
  constructor
  · intro e he
    simp [handleMessage, hpm, settleEffect, he, Json.truthy]
  · intro he
    simp [handleMessage, hpm, settleEffect, he]

/-- Witness for C5: a reply carrying both an error and a result fails the
command with the error payload. -/
theorem response_error_precedence_witness :
    (∀ e, Json.getField (Json.obj [("id", Json.num 1),
        ("error", Json.obj [("code", Json.num (-32000))]),
        ("result", Json.obj [])]) "error" = some (Json.obj e) →
      (handleMessage { openState with pending := [1], messageId := 1 }
        (Json.obj [("id", Json.num 1), ("error", Json.obj [("code", Json.num (-32000))]),
          ("result", Json.obj [])])).2 = [Output.rejected 1 (Json.obj e)]) ∧
    (Json.getField (Json.obj [("id", Json.num 1),
        ("error", Json.obj [("code", Json.num (-32000))]),
        ("result", Json.obj [])]) "error" = none →
      (handleMessage { openState with pending := [1], messageId := 1 }
        (Json.obj [("id", Json.num 1), ("error", Json.obj [("code", Json.num (-32000))]),
          ("result", Json.obj [])])).2 =
        [Output.resolved 1 (Json.getField (Json.obj [("id", Json.num 1),
          ("error", Json.obj [("code", Json.num (-32000))]),
          ("result", Json.obj [])]) "result")]) :=
  response_error_precedence { openState with pending := [1], messageId := 1 }
    (Json.obj [("id", Json.num 1), ("error", Json.obj [("code", Json.num (-32000))]),
      ("result", Json.obj [])]) 1 rfl (by decide) (by decide)

/-! ### C1: frame-routing precedence -/

/-- C1: routing of one incoming frame, in the source's exact precedence:
(a) an id matching a pending command settles that command, removes its
pending entry and consumes the frame — no listener is invoked even when
the frame also carries a method; (b) otherwise a frame carrying a
(non-empty string) method invokes every currently registered listener for
that method, in registration order, with the frame's `params` payload —
in particular a frame whose id matches nothing; (c) with no pending match
and no method (or a method with no listeners) the frame is silently
dropped: no output and no state change. -/
theorem frame_routing_precedence (st : ClientState) (data : Json) :
    (∀ n : Int, data.getField "id" = some (Json.num n) → 0 < n → n ∈ st.pending →
      handleMessage st data =
        ({ st with pending := st.pending.erase n }, [settleEffect n data]) ∧
      ∀ c p, Output.invoked c p ∉ (handleMessage st data).2) ∧
    ((¬ ∃ n : Int, data.getField "id" = some (Json.num n) ∧ n ∈ st.pending) →
      (∀ m, data.getField "method" = some (Json.str m) → m ≠ "" →
        handleMessage st data =
          (st, (listenersFor st.listeners m).map
            (fun c => Output.invoked c (data.getField "params")))) ∧
      ((∀ m, data.getField "method" = some (Json.str m) →
          m = "" ∨ listenersFor st.listeners m = []) →
        handleMessage st data = (st, []))) := by
  constructor
  · intro n hid hpos hmem
    have hpm : pendingMatch st data = some n := pendingMatch_of_mem hid (by omega) hmem
    refine ⟨by simp [handleMessage, hpm], fun c p => ?_⟩
    simp only [handleMessage, hpm]
    simpa using (settleEffect_not_invoked n data c p).symm
  · intro hno
    have hpm : pendingMatch st data = none := pendingMatch_eq_none hno
    constructor
    · intro m hm hne
      simp [handleMessage, hpm, eventDispatchList, hm, hne]
    · intro hml
      simp only [handleMessage, hpm]
      unfold eventDispatchList
      split
      · next m heq =>
        rcases hml m heq with h | h <;> simp [h]
      · rfl

/-- A state with command 1 pending and a listener registered for `"ev"`,
used to witness the routing precedence. -/
def routingState : ClientState :=
  { readyState := .OPEN, messageId := 1, pending := [1],
    listeners := [("ev", [7])], connSettled := some true }

/-- Witness for C1: a response frame that also carries a method is
consumed by the pending command and produces no listener invocation. -/
theorem frame_routing_precedence_witness :
    handleMessage routingState
      (Json.obj [("id", Json.num 1), ("method", Json.str "ev"),
        ("result", Json.obj [])]) =
      ({ routingState with pending := List.erase [1] 1 },
        [settleEffect 1 (Json.obj [("id", Json.num 1), ("method", Json.str "ev"),
          ("result", Json.obj [])])]) :=
  ((frame_routing_precedence routingState
      (Json.obj [("id", Json.num 1), ("method", Json.str "ev"),
        ("result", Json.obj [])])).1 1 rfl (by decide) (by decide)).1

/-! ### C7: listener registration semantics -/

/-- `regs.foldl` application of a sequence of `client.on` calls. -/
def applyRegs (st : ClientState) (regs : List (String × Nat)) : ClientState :=
  regs.foldl (fun s r => onEvent s r.1 r.2) st

/-- The registration-order, duplicate-free sequence obtained by adding
callbacks one at a time to an initially empty set. -/
def firstDedup (cs : List Nat) : List Nat := cs.foldl addToSet []

/-- The callbacks a registration sequence registers for method `m`, in
call order, duplicates included. -/
def regsFor (regs : List (String × Nat)) (m : String) : List Nat :=
  (regs.filter (fun r => r.1 == m)).map (·.2)

/-- How many of the outputs are invocations of callback `c`. -/
def countInvoked (outs : List Output) (c : Nat) : Nat :=
  (outs.filter (fun o => match o with
    | .invoked c2 _ => c2 == c
    | _ => false)).length

theorem addToSet_mem (cs : List Nat) (c c2 : Nat) :
    c2 ∈ addToSet cs c ↔ c2 ∈ cs ∨ c2 = c := by
  unfold addToSet
  split
  · next h => constructor
              · exact fun h2 => Or.inl h2
              · rintro (h2 | rfl) <;> [exact h2; exact h]
  · simp

theorem addToSet_nodup {cs : List Nat} (h : cs.Nodup) (c : Nat) :
    (addToSet cs c).Nodup := by
  unfold addToSet
  split
  · exact h
  · next hc => simp [List.nodup_append, h, hc]

theorem addToSet_idem (cs : List Nat) (c : Nat) :
    addToSet (addToSet cs c) c = addToSet cs c := by
  have h : c ∈ addToSet cs c := (addToSet_mem cs c c).mpr (Or.inr rfl)
  rw [show addToSet (addToSet cs c) c =
        if c ∈ addToSet cs c then addToSet cs c else addToSet cs c ++ [c] from rfl,
    if_pos h]

theorem addListener_idem (ls : List (String × List Nat)) (e : String) (c : Nat) :
    addListener (addListener ls e c) e c = addListener ls e c := by
  induction ls with
  | nil => simp [addListener, addToSet_idem, addToSet]
  | cons kv rest ih =>
    by_cases h : kv.1 == e <;>
      simp [addListener, h, ih, addToSet_idem]

theorem listenersFor_cons (k : String) (cs : List Nat)
    (rest : List (String × List Nat)) (m : String) :
    listenersFor ((k, cs) :: rest) m = if k = m then cs else listenersFor rest m := by
  by_cases h : k = m <;> simp [listenersFor, List.find?_cons, h]

theorem listenersFor_addListener (ls : List (String × List Nat)) (e : String)
    (c : Nat) (m : String) :
    listenersFor (addListener ls e c) m =
      if e = m then addToSet (listenersFor ls m) c else listenersFor ls m := by
  induction ls with
  | nil =>
    by_cases h : e = m <;>
      simp [addListener, listenersFor_cons, listenersFor, h, addToSet]
  | cons kv rest ih =>
    rcases kv with ⟨k, cs⟩
    by_cases hke : k = e
    · subst hke
      by_cases hkm : k = m
      · subst hkm
        simp [addListener, listenersFor_cons]
      · simp [addListener, listenersFor_cons, hkm]
    · have hke2 : ¬ (k == e) = true := by simp [hke]
      by_cases hkm : k = m
      · subst hkm
        have hem : ¬ e = k := fun h => hke h.symm
        simp [addListener, hke2, listenersFor_cons, hem]
      · simp [addListener, hke2, listenersFor_cons, hkm, ih]

theorem listenersFor_applyRegs (regs : List (String × Nat)) :
    ∀ (st : ClientState) (m : String),
      listenersFor (applyRegs st regs).listeners m =
        (regsFor regs m).foldl addToSet (listenersFor st.listeners m) := by
  induction regs with
  | nil => intro st m; rfl
  | cons r rest ih =>
    intro st m
    have h1 : applyRegs st (r :: rest) = applyRegs (onEvent st r.1 r.2) rest := rfl
    rw [h1, ih]
    by_cases h : r.1 = m
    · simp [regsFor, onEvent, listenersFor_addListener, h]
    · simp [regsFor, onEvent, listenersFor_addListener, h]

theorem foldl_addToSet_nodup (l : List Nat) :
    ∀ acc : List Nat, acc.Nodup → (l.foldl addToSet acc).Nodup := by
  induction l with
  | nil => intro acc h; exact h
  | cons c rest ih => intro acc h; exact ih _ (addToSet_nodup h c)

theorem foldl_addToSet_mem (l : List Nat) :
    ∀ (acc : List Nat) (c : Nat), c ∈ l.foldl addToSet acc ↔ c ∈ acc ∨ c ∈ l := by
  induction l with
  | nil => intro acc c; simp
  | cons x rest ih =>
    intro acc c
    rw [List.foldl_cons, ih, addToSet_mem]
    constructor
    · rintro ((h | rfl) | h)
      · exact Or.inl h
      · exact Or.inr (List.mem_cons_self _ _)
      · exact Or.inr (List.mem_cons_of_mem _ h)
    · rintro (h | h)
      · exact Or.inl (Or.inl h)
      · rcases List.mem_cons.mp h with rfl | h
        · exact Or.inl (Or.inr rfl)
        · exact Or.inr h

theorem firstDedup_nodup (l : List Nat) : (firstDedup l).Nodup :=
  foldl_addToSet_nodup l [] List.nodup_nil

theorem firstDedup_mem (l : List Nat) (c : Nat) : c ∈ firstDedup l ↔ c ∈ l := by
  unfold firstDedup
  rw [foldl_addToSet_mem]
  simp

theorem countInvoked_cons_invoked (x : Nat) (p : Option Json) (outs : List Output)
    (c : Nat) :
    countInvoked (Output.invoked x p :: outs) c =
      (if x = c then 1 else 0) + countInvoked outs c := by
  by_cases h : x = c <;> simp [countInvoked, List.filter_cons, h] <;> omega

theorem countInvoked_map (l : List Nat) (p : Option Json) (c : Nat) :
    countInvoked (l.map (fun c2 => Output.invoked c2 p)) c = l.count c := by
  induction l with
  | nil => rfl
  | cons x rest ih =>
    rw [List.map_cons, countInvoked_cons_invoked, ih, List.count_cons]
    by_cases h : x = c <;> simp [h] <;> omega

/-- C7: event listener registration has set semantics with
registration-order delivery: registering the identical callback twice is
a no-op on the client state; one incoming event frame for method `m`
invokes exactly the distinct registered callbacks for `m`, in first-
registration order, each with the frame's `params` payload, and each
callback registered for `m` is invoked exactly once. -/
theorem listener_registration_semantics (st : ClientState) (e : String) (c : Nat)
    (regs : List (String × Nat)) (m : String) (params : Json) (hm : m ≠ "") :
    onEvent (onEvent st e c) e c = onEvent st e c ∧
    ((handleMessage (applyRegs initState regs)
        (Json.obj [("method", Json.str m), ("params", params)])).2 =
      (firstDedup (regsFor regs m)).map (fun cb => Output.invoked cb (some params)) ∧
    ∀ cb ∈ regsFor regs m,
      countInvoked ((handleMessage (applyRegs initState regs)
        (Json.obj [("method", Json.str m), ("params", params)])).2) cb = 1) := by
  have hout : (handleMessage (applyRegs initState regs)
      (Json.obj [("method", Json.str m), ("params", params)])).2 =
      (firstDedup (regsFor regs m)).map (fun cb => Output.invoked cb (some params)) := by
    have hpm : pendingMatch (applyRegs initState regs)
        (Json.obj [("method", Json.str m), ("params", params)]) = none := by
      apply pendingMatch_eq_none
      rintro ⟨n, hid, -⟩
      have hnone : (Json.obj [("method", Json.str m),
          ("params", params)]).getField "id" = none := rfl
      rw [hnone] at hid
      cases hid
    have hmeth : (Json.obj [("method", Json.str m),
        ("params", params)]).getField "method" = some (Json.str m) := rfl
    have hparams : (Json.obj [("method", Json.str m),
        ("params", params)]).getField "params" = some params := rfl
    have hls : listenersFor (applyRegs initState regs).listeners m =
        firstDedup (regsFor regs m) := listenersFor_applyRegs regs initState m
    have hbe : (m == "") = false := by simpa using hm
    simp [handleMessage, hpm, eventDispatchList, hmeth, hparams, hbe, hls]
  refine ⟨?_, hout, ?_⟩
  · simp [onEvent, addListener_idem]
  · intro cb hcb
    rw [hout, countInvoked_map]
    exact List.count_eq_one_of_mem (firstDedup_nodup _) ((firstDedup_mem _ cb).mpr hcb)

/-- Witness for C7: three registrations, one a duplicate, give exactly
two invocations in registration order. -/
theorem listener_registration_semantics_witness :
    (handleMessage (applyRegs initState
        [("Network.requestWillBeSent", 5), ("Network.requestWillBeSent", 7),
         ("Network.requestWillBeSent", 5)])
      (Json.obj [("method", Json.str "Network.requestWillBeSent"),
        ("params", Json.obj [])])).2 =
      (firstDedup (regsFor [("Network.requestWillBeSent", 5),
          ("Network.requestWillBeSent", 7), ("Network.requestWillBeSent", 5)]
        "Network.requestWillBeSent")).map
          (fun cb => Output.invoked cb (some (Json.obj []))) ∧
    countInvoked ((handleMessage (applyRegs initState
        [("Network.requestWillBeSent", 5), ("Network.requestWillBeSent", 7),
         ("Network.requestWillBeSent", 5)])
      (Json.obj [("method", Json.str "Network.requestWillBeSent"),
        ("params", Json.obj [])])).2) 5 = 1 :=
  ⟨((listener_registration_semantics initState "a" 0
      [("Network.requestWillBeSent", 5), ("Network.requestWillBeSent", 7),
       ("Network.requestWillBeSent", 5)]
      "Network.requestWillBeSent" (Json.obj []) (by decide)).2).1,
   ((listener_registration_semantics initState "a" 0
      [("Network.requestWillBeSent", 5), ("Network.requestWillBeSent", 7),
       ("Network.requestWillBeSent", 5)]
      "Network.requestWillBeSent" (Json.obj []) (by decide)).2).2 5 (by decide)⟩

/-! ### C9: closing never settles pending commands -/

/-- Is this output a pending-command settlement (resolve or reject)? -/
def isSettle : Output → Bool
  | .resolved _ _ => true
  | .rejected _ _ => true
  | _ => false

/-- Is this action an incoming frame? -/
def isMessageAction : Action → Bool
  | .sockMessage _ => true
  | _ => false

theorem step_settles_empty {st : ClientState} {a : Action}
    (h : isMessageAction a = false) : (step st a).2.filter isSettle = [] := by
  cases a with
  | sockOpen => rfl
  | sockClose => rfl
  | sockMessage data => simp [isMessageAction] at h
  | send m p s =>
    rcases hsc : sendCommand st m p s with ⟨st2, o⟩
    cases o <;> simp [step, hsc, isSettle]
  | register e c => rfl
  | close =>
    by_cases hrs : st.readyState = ReadyState.OPEN <;> simp [step, hrs, isSettle]

theorem run_no_message_settles (acts : List Action) :
    ∀ st : ClientState, (∀ a ∈ acts, isMessageAction a = false) →
      (run st acts).2.filter isSettle = [] := by
  induction acts with
  | nil => intro st _; rfl
  | cons a as ih =>
    intro st h
    have h1 : isMessageAction a = false := h a (List.mem_cons_self _ _)
    have h2 : ∀ b ∈ as, isMessageAction b = false :=
      fun b hb => h b (List.mem_cons_of_mem _ hb)
    have hsplit : (run st (a :: as)).2 = (step st a).2 ++ (run (step st a).1 as).2 := rfl
    rw [hsplit, List.filter_append, step_settles_empty h1, ih _ h2]
    rfl

/-- C9: neither `client.close()` nor the socket's close signal resolves
or rejects anything, and both leave the pending-command table untouched;
more generally no run without incoming frames ever settles a pending
command — there is no automatic rejection of pending entries on
connection close. -/
theorem close_never_settles (st : ClientState) (acts : List Action)
    (hacts : ∀ a ∈ acts, isMessageAction a = false) :
    (step st Action.close).2.filter isSettle = [] ∧
    (step st Action.close).1.pending = st.pending ∧
    (step st Action.sockClose).2.filter isSettle = [] ∧
    (step st Action.sockClose).1.pending = st.pending ∧
    (run st acts).2.filter isSettle = [] := by
  refine ⟨step_settles_empty rfl, ?_, step_settles_empty rfl, rfl,
    run_no_message_settles acts st hacts⟩
  by_cases hrs : st.readyState = ReadyState.OPEN <;> simp [step, hrs]

/-- Witness for C9: a client holding pending command 1 performs
`close()` followed by the socket close signal; nothing settles and the
pending entry survives. -/
theorem close_never_settles_witness :
    (step routingState Action.close).2.filter isSettle = [] ∧
    (step routingState Action.close).1.pending = routingState.pending ∧
    (step routingState Action.sockClose).2.filter isSettle = [] ∧
    (step routingState Action.sockClose).1.pending = routingState.pending ∧
    (run routingState [Action.close, Action.sockClose]).2.filter isSettle = [] :=
  close_never_settles routingState [Action.close, Action.sockClose] (by decide)

/-! ### C4: connection-promise settlement -/

/-- Effect of one action on the settlement state of `connectionPromise`:
`ws.onopen` resolves it, `ws.onclose` rejects it (with the close event,
surfaced as the connection failure), everything else leaves it alone. -/
def connStep (c : Option Bool) : Action → Option Bool
  | .sockOpen => settleResolve c
  | .sockClose => settleReject c
  | _ => c

def connFold (c : Option Bool) (acts : List Action) : Option Bool :=
  acts.foldl connStep c

/-- Is this action a socket lifecycle signal? -/
def isLifecycleAction : Action → Bool
  | .sockOpen => true
  | .sockClose => true
  | _ => false

/-- The first lifecycle signal of a trace, if any. -/
def firstLifecycle (acts : List Action) : Option Action :=
  acts.find? isLifecycleAction

theorem step_connSettled (st : ClientState) (a : Action) :
    (step st a).1.connSettled = connStep st.connSettled a := by
  cases a with
  | sockOpen => rfl
  | sockClose => rfl
  | sockMessage data =>
    rcases h : pendingMatch st data with _ | n <;>
      simp [step, handleMessage, h, connStep]
  | send m p s =>
    by_cases h : st.readyState = ReadyState.OPEN <;>
      simp [step, sendCommand, h, connStep]
  | register e c => rfl
  | close =>
    by_cases h : st.readyState = ReadyState.OPEN <;> simp [step, h, connStep]

theorem run_connSettled (acts : List Action) :
    ∀ st : ClientState, (run st acts).1.connSettled = connFold st.connSettled acts := by
  induction acts with
  | nil => intro st; rfl
  | cons a as ih =>
    intro st
    have h1 : (run st (a :: as)).1 = (run (step st a).1 as).1 := rfl
    rw [h1, ih, step_connSettled]
    rfl

theorem connFold_settled (acts : List Action) :
    ∀ b : Bool, connFold (some b) acts = some b := by
  induction acts with
  | nil => intro b; rfl
  | cons a as ih =>
    intro b
    have h : connStep (some b) a = some b := by cases a <;> rfl
    show connFold (connStep (some b) a) as = some b
    rw [h]
    exact ih b

theorem connStep_skip {a : Action} (h : isLifecycleAction a = false)
    (c : Option Bool) : connStep c a = c := by
  cases a <;> first | rfl | simp [isLifecycleAction] at h

theorem firstLifecycle_cons_skip {a : Action} (h : isLifecycleAction a = false)
    (as : List Action) : firstLifecycle (a :: as) = firstLifecycle as := by
  simp [firstLifecycle, List.find?_cons, h]

theorem connFold_none_characterization (acts : List Action) :
    (connFold none acts = some true ↔ firstLifecycle acts = some Action.sockOpen) ∧
    (connFold none acts = none ↔ firstLifecycle acts = none) := by
  induction acts with
  | nil => constructor <;> simp [connFold, firstLifecycle, List.find?]
  | cons a as ih =>
    cases a with
    | sockOpen =>
      have h1 : connFold none (Action.sockOpen :: as) = some true :=
        connFold_settled as true
      have h2 : firstLifecycle (Action.sockOpen :: as) = some Action.sockOpen := rfl
      rw [h1, h2]
      constructor <;> simp
    | sockClose =>
      have h1 : connFold none (Action.sockClose :: as) = some false :=
        connFold_settled as false
      have h2 : firstLifecycle (Action.sockClose :: as) = some Action.sockClose := rfl
      rw [h1, h2]
      constructor <;> simp
    | sockMessage data =>
      rw [show connFold none (Action.sockMessage data :: as) = connFold none as from rfl,
        @firstLifecycle_cons_skip (Action.sockMessage data) rfl as]
      exact ih
    | send m p s =>
      rw [show connFold none (Action.send m p s :: as) = connFold none as from rfl,
        @firstLifecycle_cons_skip (Action.send m p s) rfl as]
      exact ih
    | register e c =>
      rw [show connFold none (Action.register e c :: as) = connFold none as from rfl,
        @firstLifecycle_cons_skip (Action.register e c) rfl as]
      exact ih
    | close =>
      rw [show connFold none (Action.close :: as) = connFold none as from rfl,
        @firstLifecycle_cons_skip Action.close rfl as]
      exact ih

/-- C4: `connectionPromise` (awaited by `createClient`) resolves iff the
first socket lifecycle signal is the open signal; it is still pending iff
no lifecycle signal has arrived (never resolves earlier); and once the
socket has closed or failed before opening, the promise is rejected and
no continuation of the trace can ever turn it into a success. -/
theorem connection_promise_settlement (acts more : List Action) :
    ((run initState acts).1.connSettled = some true ↔
      firstLifecycle acts = some Action.sockOpen) ∧
    ((run initState acts).1.connSettled = none ↔ firstLifecycle acts = none) ∧
    ((run initState acts).1.connSettled = some false →
      (run initState (acts ++ more)).1.connSettled = some false) := by
  have h := run_connSettled acts initState
  refine ⟨?_, ?_, ?_⟩
  · rw [h]
    exact (connFold_none_characterization acts).1
  · rw [h]
    exact (connFold_none_characterization acts).2
  · intro hf
    rw [h] at hf
    have hf2 : connFold none acts = some false := hf
    rw [run_connSettled (acts ++ more) initState]
    show connFold none (acts ++ more) = some false
    rw [connFold, List.foldl_append,
      show List.foldl connStep none acts = connFold none acts from rfl, hf2]
    exact connFold_settled more false

/-- Witness for C4: the socket closes before opening; a later open signal
cannot resurrect the rejected connection promise. -/
theorem connection_promise_settlement_witness :
    (run initState ([Action.sockClose] ++ [Action.sockOpen])).1.connSettled =
      some false :=
  (connection_promise_settlement [Action.sockClose] [Action.sockOpen]).2.2 rfl

/-! ### C8: correlation-id allocation -/

/-- The correlation ids of the frames a trace writes to the socket, in
send order. -/
def allocatedIds (outs : List Output) : List Int :=
  outs.filterMap (fun o => match o with
    | .sentFrame id _ => some id
    | _ => none)

/-- `intRange s k` is `[s, s + 1, ..., s + k - 1]`. -/
def intRange : Int → Nat → List Int
  | _, 0 => []
  | s, k + 1 => s :: intRange (s + 1) k

theorem allocatedIds_append (o1 o2 : List Output) :
    allocatedIds (o1 ++ o2) = allocatedIds o1 ++ allocatedIds o2 := by
  simp [allocatedIds, List.filterMap_append]

theorem allocatedIds_settle (n : Int) (data : Json) :
    allocatedIds [settleEffect n data] = [] := by
  unfold settleEffect
  split <;> repeat' split
  all_goals rfl

theorem allocatedIds_map_invoked (l : List Nat) (p : Option Json) :
    allocatedIds (l.map (fun c => Output.invoked c p)) = [] := by
  induction l with
  | nil => rfl
  | cons x rest ih => simpa [allocatedIds, List.filterMap_cons] using ih

theorem allocatedIds_dispatch (st : ClientState) (data : Json) :
    allocatedIds (eventDispatchList st data) = [] := by
  unfold eventDispatchList
  split
  · split
    · rfl
    · exact allocatedIds_map_invoked _ _
  · rfl

/-- Every step either allocates nothing and keeps the counter, or is a
send on an open socket, which emits exactly one frame carrying the id
`messageId + 1` and bumps the counter to it. -/
theorem step_alloc (st : ClientState) (a : Action) :
    (allocatedIds (step st a).2 = [] ∧ (step st a).1.messageId = st.messageId) ∨
    (allocatedIds (step st a).2 = [st.messageId + 1] ∧
      (step st a).1.messageId = st.messageId + 1) := by
  cases a with
  | sockOpen => exact Or.inl ⟨rfl, rfl⟩
  | sockClose => exact Or.inl ⟨rfl, rfl⟩
  | sockMessage data =>
    rcases h : pendingMatch st data with _ | n
    · refine Or.inl ⟨?_, ?_⟩ <;>
        simp [step, handleMessage, h, allocatedIds_dispatch]
    · refine Or.inl ⟨?_, ?_⟩ <;>
        simp [step, handleMessage, h, allocatedIds_settle]
  | send m p s =>
    by_cases hrs : st.readyState = ReadyState.OPEN
    · refine Or.inr ⟨?_, ?_⟩ <;> simp [step, sendCommand, hrs, allocatedIds]
    · refine Or.inl ⟨?_, ?_⟩ <;> simp [step, sendCommand, hrs, allocatedIds]
  | register e c => exact Or.inl ⟨rfl, rfl⟩
  | close =>
    by_cases hrs : st.readyState = ReadyState.OPEN <;>
      refine Or.inl ⟨?_, ?_⟩ <;> simp [step, hrs, allocatedIds]

theorem run_allocatedIds (acts : List Action) : ∀ st : ClientState, ∃ k : Nat,
    allocatedIds (run st acts).2 = intRange (st.messageId + 1) k ∧
    (run st acts).1.messageId = st.messageId + k := by
  induction acts with
  | nil =>
    intro st
    exact ⟨0, rfl, by simp [run]⟩
  | cons a as ih =>
    intro st
    have hsplit : (run st (a :: as)).2 = (step st a).2 ++ (run (step st a).1 as).2 := rfl
    have hsplit1 : (run st (a :: as)).1 = (run (step st a).1 as).1 := rfl
    obtain ⟨k, hk1, hk2⟩ := ih (step st a).1
    rcases step_alloc st a with ⟨h1, h2⟩ | ⟨h1, h2⟩
    · refine ⟨k, ?_, ?_⟩
      · rw [hsplit, allocatedIds_append, h1, hk1, h2]
        rfl
      · rw [hsplit1, hk2, h2]
    · refine ⟨k + 1, ?_, ?_⟩
      · rw [hsplit, allocatedIds_append, h1, hk1, h2]
        rfl
      · rw [hsplit1, hk2, h2]
        push_cast
        ring

theorem intRange_mem (k : Nat) : ∀ s i : Int, i ∈ intRange s k → s ≤ i ∧ i < s + k := by
  induction k with
  | zero =>
    intro s i h
    simp [intRange] at h
  | succ k2 ih =>
    intro s i h
    rw [intRange] at h
    rcases List.mem_cons.mp h with rfl | h
    · constructor
      · omega
      · push_cast
        omega
    · have h2 := ih (s + 1) i h
      constructor
      · omega
      · push_cast at h2 ⊢
        omega

theorem intRange_pairwise (k : Nat) : ∀ s : Int, (intRange s k).Pairwise (· < ·) := by
  induction k with
  | zero => intro s; simp [intRange]
  | succ k2 ih =>
    intro s
    rw [intRange]
    refine List.Pairwise.cons ?_ (ih (s + 1))
    intro i hi
    have h := intRange_mem k2 (s + 1) i hi
    omega

/-- C8: in any trace from a fresh client, the sequence of allocated
correlation ids is an initial segment `[1, 2, ..., k]` of the positive
integers: ids start at 1, are strictly increasing across successful
sends, are all positive, and are never reused for the life of the
connection. -/
theorem correlation_id_allocation (acts : List Action) :
    (∃ k : Nat, allocatedIds (run initState acts).2 = intRange 1 k) ∧
    List.Chain' (· < ·) (allocatedIds (run initState acts).2) ∧
    (allocatedIds (run initState acts).2).Nodup ∧
    ∀ i ∈ allocatedIds (run initState acts).2, 0 < i := by
  obtain ⟨k, hk, -⟩ := run_allocatedIds acts initState
  have hk1 : allocatedIds (run initState acts).2 = intRange 1 k := hk
  have hpw : (allocatedIds (run initState acts).2).Pairwise (· < ·) := by
    rw [hk1]
    exact intRange_pairwise k 1
  refine ⟨⟨k, hk1⟩, hpw.chain', hpw.imp ne_of_lt, ?_⟩
  intro i hi
  rw [hk1] at hi
  have h := intRange_mem k 1 i hi
  omega

/-- Witness for C8: two successful sends allocate ids 1 and 2; the first
send of a connection carries id 1, which is positive. -/
theorem correlation_id_allocation_witness :
    (∃ k : Nat, allocatedIds (run initState
      [Action.sockOpen, Action.send "Target.createTarget" none none,
       Action.send "Target.attachToTarget" none none]).2 = intRange 1 k) ∧
    (0 : Int) < 1 :=
  ⟨(correlation_id_allocation
      [Action.sockOpen, Action.send "Target.createTarget" none none,
       Action.send "Target.attachToTarget" none none]).1,
   (correlation_id_allocation
      [Action.sockOpen, Action.send "Target.createTarget" none none,
       Action.send "Target.attachToTarget" none none]).2.2.2 1 (by decide)⟩

/-! ### C2: each command settles at most once, with its own reply -/

/-- Is this output a settlement of the command with id `n`? -/
def isSettleFor (n : Int) : Output → Bool
  | .resolved m _ => m == n
  | .rejected m _ => m == n
  | _ => false

/-- How many outputs of a trace settle the command with id `n`. -/
def countSettles (outs : List Output) (n : Int) : Nat :=
  (outs.filter (isSettleFor n)).length

/-- Reachable-state invariant of the `createClient` closure: the counter
is non-negative, the pending ids are distinct, and every pending id is a
positive integer no greater than the counter that allocated it. -/
def Inv (st : ClientState) : Prop :=
  0 ≤ st.messageId ∧ st.pending.Nodup ∧
    ∀ n ∈ st.pending, 0 < n ∧ n ≤ st.messageId

theorem inv_initState : Inv initState :=
  ⟨le_refl 0, List.nodup_nil, by simp [initState]⟩

theorem countSettles_append (o1 o2 : List Output) (n : Int) :
    countSettles (o1 ++ o2) n = countSettles o1 n + countSettles o2 n := by
  simp [countSettles, List.filter_append]

theorem isSettleFor_settleEffect (n k : Int) (data : Json) :
    isSettleFor n (settleEffect k data) = (k == n) := by
  unfold settleEffect
  split <;> repeat' split
  all_goals rfl

theorem countSettles_map_invoked (l : List Nat) (p : Option Json) (n : Int) :
    countSettles (l.map (fun c => Output.invoked c p)) n = 0 := by
  induction l with
  | nil => rfl
  | cons x rest ih => exact ih

theorem countSettles_dispatch (st : ClientState) (data : Json) (n : Int) :
    countSettles (eventDispatchList st data) n = 0 := by
  unfold eventDispatchList
  split
  · split
    · rfl
    · exact countSettles_map_invoked _ _ n
  · rfl

theorem countSettles_step_non_message {st : ClientState} {a : Action}
    (h : isMessageAction a = false) (n : Int) : countSettles (step st a).2 n = 0 := by
  cases a with
  | sockOpen => rfl
  | sockClose => rfl
  | sockMessage data => simp [isMessageAction] at h
  | send m p s =>
    rcases hsc : sendCommand st m p s with ⟨st2, o⟩
    cases o <;> simp [step, hsc, countSettles, isSettleFor]
  | register e c => rfl
  | close =>
    by_cases hrs : st.readyState = ReadyState.OPEN <;>
      simp [step, hrs, countSettles, isSettleFor]

/-- The invariant is preserved by every client transition. -/
theorem inv_step {st : ClientState} (h : Inv st) (a : Action) : Inv (step st a).1 := by
  obtain ⟨hm0, hnd, hb⟩ := h
  cases a with
  | sockOpen => exact ⟨hm0, hnd, hb⟩
  | sockClose => exact ⟨hm0, hnd, hb⟩
  | register e c => exact ⟨hm0, hnd, hb⟩
  | close =>
    by_cases hrs : st.readyState = ReadyState.OPEN
    · have heq : (step st Action.close).1 = { st with readyState := ReadyState.CLOSING } := by
        simp [step, hrs]
      rw [heq]
      exact ⟨hm0, hnd, hb⟩
    · have heq : (step st Action.close).1 = st := by simp [step, hrs]
      rw [heq]
      exact ⟨hm0, hnd, hb⟩
  | sockMessage data =>
    rcases hpm : pendingMatch st data with _ | k
    · have heq : (step st (Action.sockMessage data)).1 = st := by
        simp [step, handleMessage, hpm]
      rw [heq]
      exact ⟨hm0, hnd, hb⟩
    · have heq : (step st (Action.sockMessage data)).1 =
          { st with pending := st.pending.erase k } := by
        simp [step, handleMessage, hpm]
      rw [heq]
      exact ⟨hm0, hnd.erase k, fun n hn => hb n (List.mem_of_mem_erase hn)⟩
  | send m p s =>
    by_cases hrs : st.readyState = ReadyState.OPEN
    · have heq : (step st (Action.send m p s)).1 =
          { st with messageId := st.messageId + 1,
                    pending := st.pending ++ [st.messageId + 1] } := by
        simp [step, sendCommand, hrs]
      rw [heq]
      refine ⟨show (0 : Int) ≤ st.messageId + 1 from by omega, ?_, ?_⟩
      · show (st.pending ++ [st.messageId + 1]).Nodup
        rw [List.nodup_append]
        refine ⟨hnd, List.nodup_singleton _, fun x hx hx2 => ?_⟩
        have h1 := hb x hx
        have h2 : x = st.messageId + 1 := by simpa using hx2
        omega
      · intro n hn
        have hn2 : n ∈ st.pending ++ [st.messageId + 1] := hn
        show 0 < n ∧ n ≤ st.messageId + 1
        rcases List.mem_append.mp hn2 with h1 | h1
        · have h2 := hb n h1
          omega
        · have h2 : n = st.messageId + 1 := by simpa using h1
          omega
    · have heq : (step st (Action.send m p s)).1 = st := by
        simp [step, sendCommand, hrs]
      rw [heq]
      exact ⟨hm0, hnd, hb⟩

/-- Core counting argument: from any state satisfying the invariant, a
trace settles each id at most once; and an id that is not pending but
already within the allocated range is never settled again. -/
theorem run_settles_bound (acts : List Action) : ∀ st : ClientState, Inv st →
    ∀ n : Int, countSettles (run st acts).2 n ≤ 1 ∧
      (n ∉ st.pending → n ≤ st.messageId → countSettles (run st acts).2 n = 0) := by
  induction acts with
  | nil =>
    intro st _ n
    constructor
    · show countSettles [] n ≤ 1
      simp [countSettles]
    · intro _ _
      show countSettles [] n = 0
      simp [countSettles]
  | cons a as ih =>
    intro st hInv n
    have hsplit : (run st (a :: as)).2 = (step st a).2 ++ (run (step st a).1 as).2 := rfl
    have hInv2 := inv_step hInv a
    obtain ⟨hm0, hnd, hb⟩ := hInv
    rw [hsplit, countSettles_append]
    cases a with
    | sockOpen =>
      rcases ih _ hInv2 n with ⟨ha, hz⟩
      rw [show countSettles (step st Action.sockOpen).2 n = 0 from rfl, Nat.zero_add]
      exact ⟨ha, fun h1 h2 => hz h1 h2⟩
    | sockClose =>
      rcases ih _ hInv2 n with ⟨ha, hz⟩
      rw [show countSettles (step st Action.sockClose).2 n = 0 from rfl, Nat.zero_add]
      exact ⟨ha, fun h1 h2 => hz h1 h2⟩
    | register e c =>
      rcases ih _ hInv2 n with ⟨ha, hz⟩
      rw [show countSettles (step st (Action.register e c)).2 n = 0 from rfl, Nat.zero_add]
      exact ⟨ha, fun h1 h2 => hz h1 h2⟩
    | close =>
      rcases ih _ hInv2 n with ⟨ha, hz⟩
      have h0 : countSettles (step st Action.close).2 n = 0 :=
        @countSettles_step_non_message st Action.close rfl n
      rw [h0]
      have hp : (step st Action.close).1.pending = st.pending := by
        by_cases hrs : st.readyState = ReadyState.OPEN <;> simp [step, hrs]
      have hmi : (step st Action.close).1.messageId = st.messageId := by
        by_cases hrs : st.readyState = ReadyState.OPEN <;> simp [step, hrs]
      refine ⟨by simpa using ha, fun h1 h2 => ?_⟩
      have h1b : n ∉ (step st Action.close).1.pending := by
        rw [hp]
        exact h1
      have h2b : n ≤ (step st Action.close).1.messageId := by
        rw [hmi]
        exact h2
      simpa using hz h1b h2b
    | send m p s =>
      rcases ih _ hInv2 n with ⟨ha, hz⟩
      have h0 : countSettles (step st (Action.send m p s)).2 n = 0 :=
        @countSettles_step_non_message st (Action.send m p s) rfl n
      rw [h0]
      refine ⟨by simpa using ha, fun h1 h2 => ?_⟩
      by_cases hrs : st.readyState = ReadyState.OPEN
      · have heq : (step st (Action.send m p s)).1 =
            { st with messageId := st.messageId + 1,
                      pending := st.pending ++ [st.messageId + 1] } := by
          simp [step, sendCommand, hrs]
        have h1b : n ∉ (step st (Action.send m p s)).1.pending := by
          rw [heq]
          simp only [List.mem_append, List.mem_singleton]
          push_neg
          exact ⟨h1, by omega⟩
        have h2b : n ≤ (step st (Action.send m p s)).1.messageId := by
          rw [heq]
          show n ≤ st.messageId + 1
          omega
        simpa using hz h1b h2b
      · have heq : (step st (Action.send m p s)).1 = st := by
          simp [step, sendCommand, hrs]
        have h1b : n ∉ (step st (Action.send m p s)).1.pending := by
          rw [heq]
          exact h1
        have h2b : n ≤ (step st (Action.send m p s)).1.messageId := by
          rw [heq]
          exact h2
        simpa using hz h1b h2b
    | sockMessage data =>
      rcases hpm : pendingMatch st data with _ | k
      · have heq : step st (Action.sockMessage data) = (st, eventDispatchList st data) := by
          simp [step, handleMessage, hpm]
        rw [heq]
        rcases ih st ⟨hm0, hnd, hb⟩ n with ⟨ha, hz⟩
        refine ⟨?_, fun h1 h2 => ?_⟩
        · simpa [countSettles_dispatch] using ha
        · simpa [countSettles_dispatch] using hz h1 h2
      · have hk := pendingMatch_mem hpm
        have heq : step st (Action.sockMessage data) =
            ({ st with pending := st.pending.erase k }, [settleEffect k data]) := by
          simp [step, handleMessage, hpm]
        rw [heq]
        have hInv3 : Inv { st with pending := st.pending.erase k } := by
          rw [heq] at hInv2
          exact hInv2
        rcases ih _ hInv3 n with ⟨ha, hz⟩
        have hcs : countSettles [settleEffect k data] n = if k = n then 1 else 0 := by
          by_cases hkn : k = n <;>
            simp [countSettles, List.filter_cons, isSettleFor_settleEffect, hkn]
        rw [hcs]
        by_cases hkn : k = n
        · subst hkn
          have hkb := hb k hk
          have hne : k ∉ st.pending.erase k := by
            intro hmem
            exact ((List.Nodup.mem_erase_iff hnd).mp hmem).1 rfl
          have hz2 := hz hne hkb.2
          refine ⟨?_, fun h1 _ => absurd hk h1⟩
          simp [hz2]
        · have h1b : n ∉ st.pending → n ∉ st.pending.erase k :=
            fun h1 hmem => h1 (List.mem_of_mem_erase hmem)
          refine ⟨?_, fun h1 h2 => ?_⟩
          · simp only [if_neg hkn, Nat.zero_add]
            exact ha
          · simp [if_neg hkn, hz (h1b h1) h2]

/-- C2: each command settles at most once with the payload of the reply
frame carrying its own allocated id.  Along any trace from a fresh client
(the replies arriving in any order), the number of settlements of any
given id is at most one.  When a reply whose id matches a pending command
arrives, that command is settled with exactly that frame's payload, the
pending entry is removed on the spot, and no subsequent trace can settle
that id again — a later frame bearing the same id is no longer treated as
a command response. -/
theorem command_settles_once (acts : List Action) (st : ClientState)
    (data : Json) (n : Int) :
    countSettles (run initState acts).2 n ≤ 1 ∧
    (Inv st → data.getField "id" = some (Json.num n) → n ∈ st.pending →
      (handleMessage st data).2 = [settleEffect n data] ∧
      n ∉ (handleMessage st data).1.pending ∧
      countSettles (run { st with pending := st.pending.erase n } acts).2 n = 0) := by
  refine ⟨(run_settles_bound acts initState inv_initState n).1, ?_⟩
  intro hInv hid hmem
  obtain ⟨hm0, hnd, hb⟩ := hInv
  have hpos := (hb n hmem).1
  have hpm : pendingMatch st data = some n :=
    pendingMatch_of_mem hid (by omega) hmem
  have heq : handleMessage st data =
      ({ st with pending := st.pending.erase n }, [settleEffect n data]) := by
    simp [handleMessage, hpm]
  have hne : n ∉ st.pending.erase n := by
    intro hmem2
    exact ((List.Nodup.mem_erase_iff hnd).mp hmem2).1 rfl
  have hInv3 : Inv { st with pending := st.pending.erase n } :=
    ⟨hm0, hnd.erase n, fun x hx => hb x (List.mem_of_mem_erase hx)⟩
  refine ⟨by rw [heq], by rw [heq]; exact hne, ?_⟩
  exact (run_settles_bound acts _ hInv3 n).2 hne (hb n hmem).2

/-- Witness for C2: command 1 is pending; its reply settles it and
removes the entry, and replaying the identical reply afterwards settles
nothing. -/
theorem command_settles_once_witness :
    (handleMessage routingState (Json.obj [("id", Json.num 1),
        ("result", Json.obj [])])).2 =
      [settleEffect 1 (Json.obj [("id", Json.num 1), ("result", Json.obj [])])] ∧
    1 ∉ (handleMessage routingState (Json.obj [("id", Json.num 1),
        ("result", Json.obj [])])).1.pending ∧
    countSettles (run { routingState with pending := List.erase [1] 1 }
      [Action.sockMessage (Json.obj [("id", Json.num 1),
        ("result", Json.obj [])])]).2 1 = 0 :=
  (command_settles_once
      [Action.sockMessage (Json.obj [("id", Json.num 1), ("result", Json.obj [])])]
      routingState (Json.obj [("id", Json.num 1), ("result", Json.obj [])]) 1).2
    ⟨by decide, by decide, by decide⟩ rfl (by decide)

end TinyBrowser
